import Mathlib

/-!
Shallow embedding of `src/federation/executor.go` (package `federation` of the
thunder repository): the path-following algorithm (`pathFollower.extractTargets`),
the distributed execution routine (`Executor.execute` / `Executor.Execute`) and
gateway construction (`NewExecutor`).

Result trees are JSON-like Go `interface{}` values: objects
(`map[string]interface{}`), lists (`[]interface{}`) and scalars.  Go maps are
modelled as association lists (first-match lookup, insert-or-overwrite update);
errors (`error` values built with `fmt.Errorf`) are modelled as `String`s in
`Except`, keeping the format-string prefixes of the source (the `%v` payload of
a whole object is not reproduced).  A Go runtime panic (out-of-bounds index,
failed type assertion) is modelled as a distinguished error constructor
`GoErr.crash`, since it aborts execution without producing a result or an
`error` value.
-/

namespace Federation

/-- A JSON-like result-tree node, the shape `encoding/json` decodes into a Go
`interface{}`: object, list, string, number, boolean or null.  (Go decodes
numbers to `float64`; no claim inspects numeric values, so `Int` stands in.) -/
inductive Value where
  | null : Value
  | boolean (b : Bool) : Value
  | num (n : Int) : Value
  | str (s : String) : Value
  | arr (elems : List Value) : Value
  | obj (fields : List (String × Value)) : Value
deriving Repr

/-- Go map read `m[k]`: first-match lookup in the association list. -/
def lookupEntry {α : Type} : List (String × α) → String → Option α
  | [], _ => none
  | (k, v) :: rest, name => if k = name then some v else lookupEntry rest name

/-- Go map write `m[k] = v`: overwrite the existing entry or append a new one. -/
def setEntry {α : Type} : List (String × α) → String → α → List (String × α)
  | [], k, v => [(k, v)]
  | (k', v') :: rest, k, v =>
    if k' = k then (k, v) :: rest else (k', v') :: setEntry rest k v

/-- Kinds of path steps (`PathStep.Kind`), declared outside src/ but fixed by
their use in `extractTargets`: descend into a field, or restrict to a concrete
type. -/
inductive PathStepKind where
  | KindField : PathStepKind
  | KindType : PathStepKind
deriving Repr, DecidableEq

/-- Modelled from the spec: `PathStep` (§3) is a single traversal instruction,
"descend into field F" (`KindField`) or "restrict to objects whose reported
concrete type equals T" (`KindType`); its Go declaration lives outside src/ but
`extractTargets` reads exactly the fields `Kind` and `Name`. -/
structure PathStep where
  Kind : PathStepKind
  Name : String
deriving Repr, DecidableEq

/-- The `pathFollower` working structure: accumulated merge targets (objects)
and the correlation keys extracted from their `__federation` fields. -/
structure pathFollower where
  targets : List (List (String × Value))
  keys : List Value
deriving Repr

mutual

/-- Embedding of `pathFollower.extractTargets` (executor.go lines 98-153).
The Go method mutates `pf` by appending; here the updated follower is returned
in `Except`.  Branch order follows the source: a list fans out over its
elements with index-tagged errors; an exhausted path demands an object with a
`__federation` field; otherwise a non-object yields `nil` (no error), a
`KindField` step descends into the named field (absence is an error), and a
`KindType` step demands a string `__typename`, recursing only on a match. -/
def extractTargets (pf : pathFollower) (node : Value) (path : List PathStep) :
    Except String pathFollower :=
  match node with
  | .arr elems => extractTargetsList pf elems path 0
  | _ =>
    match path with
    | [] =>
      match node with
      | .obj fields =>
        match lookupEntry fields "__federation" with
        | none => .error "missing __federation"
        | some key =>
          .ok { targets := pf.targets ++ [fields], keys := pf.keys ++ [key] }
      | _ => .error "not an object"
    | step :: rest =>
      match node with
      | .obj fields =>
        match step.Kind with
        | .KindField =>
          match lookupEntry fields step.Name with
          | none => .error ("does not have key " ++ step.Name)
          | some next =>
            match extractTargets pf next rest with
            | .error e => .error ("elem: " ++ e)
            | .ok pf' => .ok pf'
        | .KindType =>
          match lookupEntry fields "__typename" with
          | some (.str typ) =>
            if typ = step.Name then
              match extractTargets pf (.obj fields) rest with
              | .error e => .error ("typ " ++ typ ++ ": " ++ e)
              | .ok pf' => .ok pf'
            else .ok pf
          | _ => .error "does not have string key __typename"
      | _ => .ok pf
termination_by (path.length, sizeOf node)

/-- The `for i, elem := range slice` loop of `extractTargets`: apply the same
path to every element in order, threading the follower state, tagging an
element's error with its index and aborting. -/
def extractTargetsList (pf : pathFollower) (elems : List Value)
    (path : List PathStep) (i : Nat) : Except String pathFollower :=
  match elems with
  | [] => .ok pf
  | e :: rest =>
    match extractTargets pf e path with
    | .error err => .error ("idx " ++ toString i ++ ": " ++ err)
    | .ok pf' => extractTargetsList pf' rest path (i + 1)
termination_by (path.length, sizeOf elems)

end

/-- Modelled from the spec: the neutral coordinator identity (§4.3, glossary
"coordinator plan").  The constant `gatewayCoordinatorServiceName` is declared
outside src/ (in the planner file); `execute` only compares `p.Service`
against it, so any fixed name serves. -/
def gatewayCoordinatorServiceName : String := "gateway-coordinator-service"

/-- Modelled from the spec: a `Plan` node (§3) carries the target service
name, the sub-query body to send, the traversal path from the parent plan's
result root, and the dependent child plans (`After`).  Its Go declaration
lives outside src/; `execute` reads exactly `Service` and `After` (and,
conspicuously, never `Path`). -/
inductive Plan where
  | mk (Service : String) (Query : String) (Path : List PathStep)
      (After : List Plan)

/-- Target service name of a plan. -/
def Plan.Service : Plan → String
  | .mk s _ _ _ => s

/-- Sub-query body of a plan. -/
def Plan.Query : Plan → String
  | .mk _ q _ _ => q

/-- Traversal path of a plan, relative to its parent plan's result root. -/
def Plan.Path : Plan → List PathStep
  | .mk _ _ p _ => p

/-- Dependent child plans of a plan. -/
def Plan.After : Plan → List Plan
  | .mk _ _ _ a => a

/-- Outcome of a failing Go computation: `crash` models an unrecovered runtime
panic (out-of-bounds index, failed type assertion), which aborts the program
without producing a result or an `error`; `fail` models a returned non-nil
`error` value. -/
inductive GoErr where
  | crash (msg : String) : GoErr
  | fail (msg : String) : GoErr
deriving Repr, DecidableEq

/-- Message of the runtime panic raised by Go when indexing `res[0]` on an
empty (nil) slice. -/
def indexOutOfRangeMsg : String := "index out of range [0] with length 0"

/-- A plan's child list is structurally smaller than the plan. -/
theorem Plan.sizeOf_After_lt (p : Plan) : sizeOf p.After < sizeOf p := by
  cases p with
  | mk s q pa a => simp [Plan.After]

/-- Shallow-merge `result` into `target` (`for k, v := range result { target[k] = v }`):
field-by-field overwrite/insert. -/
def mergeFields (target result : List (String × Value)) :
    List (String × Value) :=
  result.foldl (fun t kv => setEntry t kv.1 kv.2) target

mutual

/-- Embedding of `Executor.execute` (executor.go lines 155-207).  The receiver
`e` is never read by the Go body, so `execute` is a plain function of the plan
and the supplied keys (which the body also never reads: children are always
invoked with `pf.keys = nil`).  If the plan targets the coordinator identity
the local result slice `res` is `[{}]`, otherwise it stays nil; each child is
then set up with `pf.targets = [res[0]]` and `pf.keys = nil` — indexing the
nil slice crashes — the child executes, its single result object is merged
into `res[0]`, and the (possibly merged) `res` is returned.  The concurrent
`errgroup` fan-out is sequentialized in `After` order; merges mutate the shared
`res[0]`, modelled by threading the updated slice. -/
def execute (p : Plan) (keys : List Value) : Except GoErr (List Value) :=
  let res : List Value :=
    if p.Service = gatewayCoordinatorServiceName then [Value.obj []] else []
  executeAfter res p.After
termination_by sizeOf p
decreasing_by exact Plan.sizeOf_After_lt p

/-- The `for _, subPlan := range p.After` loop of `execute`: per child, build
`pf.targets = [res[0]]` (a crash when `res` is empty, a crash when `res[0]` is
not an object — Go's unchecked index and type assertion), recursively execute
the child with nil keys, demand exactly `len(pf.targets) = 1` results, demand
an object result, and merge it into `res[0]`. -/
def executeAfter (res : List Value) (after : List Plan) :
    Except GoErr (List Value) :=
  match after with
  | [] => .ok res
  | subPlan :: rest =>
    match res with
    | [] => .error (.crash indexOutOfRangeMsg)
    | r0 :: rs =>
      match r0 with
      | .obj fields =>
        match execute subPlan [] with
        | .error (.crash m) => .error (.crash m)
        | .error (.fail m) => .error (.fail ("executing sub plan: " ++ m))
        | .ok results =>
          if results.length ≠ 1 then
            .error (.fail ("got " ++ toString results.length ++ " results for 1 targets"))
          else
            match results with
            | [Value.obj resultFields] =>
                executeAfter (Value.obj (mergeFields fields resultFields) :: rs)
                  rest
            | _ => .error (.fail "result is not an object")
      | _ => .error (.crash "interface conversion: interface is not map")
termination_by sizeOf after

end

/-- Embedding of the tail of `Executor.Execute` (executor.go lines 209-223)
after planning: `planRoot` lives outside src/, so the already-produced plan is
taken directly; `execute` runs with nil keys and the first element `r[0]` of
its result is returned (a crash when `r` is empty). -/
def ExecuteFromPlan (p : Plan) : Except GoErr Value :=
  match execute p [] with
  | .error e => .error e
  | .ok [] => .error (.crash indexOutOfRangeMsg)
  | .ok (v :: _) => .ok v

/-- Stand-in for Go `[]byte` payloads (wire bytes of a fetched schema). -/
abbrev Bytes : Type := String

/-- Default (nil) byte payload, what an errored fetch leaves behind. -/
def Bytes.nil : Bytes := ""

/-- Stand-in for the decoded `introspectionQueryResult` (declared outside
src/; `NewExecutor` only passes it around). -/
abbrev IQR : Type := String

/-- Stand-in for a `*graphql.Schema` value (external collaborator). -/
abbrev SchemaT : Type := String

/-- Stand-in for the flattener derived from the composed schema (declared
outside src/). -/
abbrev FlattenerT : Type := String

/-- Modelled from the spec: the result of `convertSchema` (§4.1), a composed
schema with federation field-ownership information; `NewExecutor` reads only
its `Schema` field. -/
structure SchemaWithFederationInfo where
  Schema : SchemaT

/-- The in-process `Server` wrapping a schema (`&Server{schema: ...}`); its
declaration lives outside src/, but `NewExecutor` constructs it with exactly
the field `schema`. -/
structure Server where
  schema : SchemaT

/-- The planner constructed at the end of `NewExecutor`, holding the merged
schema and the flattener. -/
structure Planner where
  schema : SchemaWithFederationInfo
  flattener : FlattenerT

/-- The gateway `Executor`: the (mutated) executor-client map and the
planner.  `C` abstracts the `ExecutorClient` interface values held in the
map. -/
structure Executor (C : Type) where
  Executors : List (String × C)
  planner : Planner

/-- Modelled from the spec: the external collaborators `NewExecutor` calls
into, none of which live under src/ — query parsing (`graphql.Parse` of the
introspection query), the per-client `Execute` capability (§6), JSON
unmarshalling into `introspectionQueryResult`, schema merging
(`convertSchema`, §4.1), `introspection.BareIntrospectionSchema`,
`introspection.RunIntrospectionQuery`, wrapping a `Server` into a
`DirectExecutorClient`, and flattener derivation (`newFlattener`, §4.2).
Each is a fallible (or pure) function parameter so that `NewExecutor`'s own
control flow, which is in src/, is embedded exactly. -/
structure GatewayDeps (C : Type) where
  parse : Except String Unit
  exec : C → Unit → Except String Bytes
  unmarshal : Bytes → Except String IQR
  convertSchema : List (String × IQR) → Except String SchemaWithFederationInfo
  bareSchema : SchemaT → SchemaT
  runIntrospection : SchemaT → Except String Bytes
  directClient : Server → C
  newFlattener : SchemaT → Except String FlattenerT

/-- Embedding of `fetchSchema` (executor.go lines 26-33): parse the standard
introspection query, then execute it against the client; either failure is
returned unwrapped. -/
def fetchSchema {C : Type} (deps : GatewayDeps C) (client : C) :
    Except String Bytes :=
  match deps.parse with
  | .error e => .error e
  | .ok q => deps.exec client q

/-- The schema-fetching loop of `NewExecutor` (lines 37-50): for each
entry of the executors map, fetch and unmarshal its schema, wrapping a fetch
failure as `fetching schema <server>: <err>` and a decode failure as
`unmarshaling schema <server>: <err>`, aborting at the first failure.  Go's
map iteration order is modelled by the list order. -/
def fetchSchemas {C : Type} (deps : GatewayDeps C) :
    List (String × C) → Except String (List (String × IQR))
  | [] => .ok []
  | (server, client) :: rest =>
    match fetchSchema deps client with
    | .error e => .error ("fetching schema " ++ server ++ ": " ++ e)
    | .ok bytes =>
      match deps.unmarshal bytes with
      | .error e => .error ("unmarshaling schema " ++ server ++ ": " ++ e)
      | .ok iq =>
        match fetchSchemas deps rest with
        | .error e => .error e
        | .ok l => .ok ((server, iq) :: l)

/-- The bytes produced at lines 61 of `NewExecutor`:
`RunIntrospectionQuery(BareIntrospectionSchema(introspectionServer.schema))`
where `introspectionServer.schema = BareIntrospectionSchema(types.Schema)`.
The source discards the accompanying `err` without checking it, so an errored
run degrades to the nil byte payload handed on to `json.Unmarshal`. -/
def introspectionBytes {C : Type} (deps : GatewayDeps C)
    (types : SchemaWithFederationInfo) : Bytes :=
  let introspectionServer : Server := { schema := deps.bareSchema types.Schema }
  match deps.runIntrospection (deps.bareSchema introspectionServer.schema) with
  | .ok b => b
  | .error _ => Bytes.nil

/-- Embedding of `NewExecutor` (executor.go lines 35-91): fetch and decode
every service's schema (aborting on the first failure), merge them
(`convertSchema`, failure wrapped as `converting schema error: ...`),
synthesize the introspection server and insert it into the caller's executors
map under the key `introspection`, re-introspect and decode the composed
schema (failure wrapped as `unmarshaling introspection schema: ...`), merge
again with the `introspection` pseudo-service added (failure returned bare),
derive the flattener (failure returned bare), and return the gateway holding
the mutated executors map and the planner. -/
def NewExecutor {C : Type} (deps : GatewayDeps C)
    (executors : List (String × C)) : Except String (Executor C) :=
  match fetchSchemas deps executors with
  | .error e => .error e
  | .ok schemas =>
    match deps.convertSchema schemas with
    | .error e => .error ("converting schema error: " ++ e)
    | .ok types =>
      let introspectionServer : Server :=
        { schema := deps.bareSchema types.Schema }
      let executors2 :=
        setEntry executors "introspection" (deps.directClient introspectionServer)
      match deps.unmarshal (introspectionBytes deps types) with
      | .error e => .error ("unmarshaling introspection schema: " ++ e)
      | .ok iq =>
        let schemas2 := setEntry schemas "introspection" iq
        match deps.convertSchema schemas2 with
        | .error e => .error e
        | .ok types2 =>
          match deps.newFlattener types2.Schema with
          | .error e => .error e
          | .ok fl =>
            .ok { Executors := executors2
                  planner := { schema := types2, flattener := fl } }

/-- An object carrying only the synthetic correlation marker with key `k`. -/
def fedObj (k : Value) : Value := Value.obj [("__federation", k)]

/-- Field list of `fedObj k`, the shape appended to `pf.targets`. -/
def fedFields (k : Value) : List (String × Value) := [("__federation", k)]

/-- Concrete gateway dependencies in which every step succeeds; client values
are bare naturals, the synthesized direct client is `7`. -/
def depsAllOk : GatewayDeps Nat where
  parse := .ok ()
  exec := fun _ _ => .ok "B"
  unmarshal := fun _ => .ok "IQ"
  convertSchema := fun _ => .ok ⟨"T"⟩
  bareSchema := fun s => s
  runIntrospection := fun _ => .ok "IB"
  directClient := fun _ => 7
  newFlattener := fun _ => .ok "FL"

/-- Concrete gateway dependencies in which fetching from client `2` fails. -/
def depsFetchFail : GatewayDeps Nat where
  parse := .ok ()
  exec := fun c _ => if c = 2 then .error "boom" else .ok "B"
  unmarshal := fun _ => .ok "IQ"
  convertSchema := fun _ => .ok ⟨"T"⟩
  bareSchema := fun s => s
  runIntrospection := fun _ => .ok "IB"
  directClient := fun _ => 7
  newFlattener := fun _ => .ok "FL"

/-- Concrete gateway dependencies in which client `2`'s schema bytes cannot be
unmarshalled. -/
def depsDecodeFail : GatewayDeps Nat where
  parse := .ok ()
  exec := fun c _ => .ok (if c = 2 then "bad" else "good")
  unmarshal := fun b => if b = "bad" then .error "garbage" else .ok "IQ"
  convertSchema := fun _ => .ok ⟨"T"⟩
  bareSchema := fun s => s
  runIntrospection := fun _ => .ok "IB"
  directClient := fun _ => 7
  newFlattener := fun _ => .ok "FL"

/-- Concrete gateway dependencies in which schema merging fails. -/
def depsMergeFail : GatewayDeps Nat where
  parse := .ok ()
  exec := fun _ _ => .ok "B"
  unmarshal := fun _ => .ok "IQ"
  convertSchema := fun _ => .error "conflict"
  bareSchema := fun s => s
  runIntrospection := fun _ => .ok "IB"
  directClient := fun _ => 7
  newFlattener := fun _ => .ok "FL"

/-- Concrete gateway dependencies in which flattener derivation fails. -/
def depsFlattenFail : GatewayDeps Nat where
  parse := .ok ()
  exec := fun _ _ => .ok "B"
  unmarshal := fun _ => .ok "IQ"
  convertSchema := fun _ => .ok ⟨"T"⟩
  bareSchema := fun s => s
  runIntrospection := fun _ => .ok "IB"
  directClient := fun _ => 7
  newFlattener := fun _ => .error "no key"

/-- The gateway that `NewExecutor depsAllOk [("a", 1)]` constructs. -/
def exAllOk : Executor Nat where
  Executors := [("a", 1), ("introspection", 7)]
  planner := { schema := ⟨"T"⟩, flattener := "FL" }

/-! Lemmas about the embedded functions. -/

/-- Setting a key and reading it back yields the new value (Go map write then
read). -/
theorem lookupEntry_setEntry_self {α : Type} (l : List (String × α))
    (k : String) (v : α) : lookupEntry (setEntry l k v) k = some v := by
  induction l with
  | nil => simp [setEntry, lookupEntry]
  | cons hd tl ih =>
    obtain ⟨k', v'⟩ := hd
    by_cases hk : k' = k
    · simp [setEntry, hk, lookupEntry]
    · simp [setEntry, hk, lookupEntry, ih]

/-- Setting a key leaves every other key's lookup unchanged. -/
theorem lookupEntry_setEntry_other {α : Type} (l : List (String × α))
    (k k' : String) (v : α) (h : k' ≠ k) :
    lookupEntry (setEntry l k v) k' = lookupEntry l k' := by
  induction l with
  | nil => simp [setEntry, lookupEntry, Ne.symm h]
  | cons hd tl ih =>
    obtain ⟨k'', v''⟩ := hd
    by_cases hk : k'' = k
    · subst hk
      simp [setEntry, lookupEntry, Ne.symm h]
    · simp [setEntry, hk, lookupEntry, ih]

/-- The schema-fetching loop over a list whose prefix wholly succeeds: the
suffix is processed from the accumulated state, first failure aborting. -/
theorem fetchSchemas_prefix_ok {C : Type} (deps : GatewayDeps C)
    (pre : List (String × C)) (l : List (String × IQR))
    (h : fetchSchemas deps pre = .ok l) (rest : List (String × C)) :
    fetchSchemas deps (pre ++ rest) =
      match fetchSchemas deps rest with
      | .error e => .error e
      | .ok l2 => .ok (l ++ l2) := by
  induction pre generalizing l with
  | nil =>
    simp [fetchSchemas] at h
    subst h
    cases hr : fetchSchemas deps rest <;> simp [hr]
  | cons hd pre' ih =>
    obtain ⟨s, c⟩ := hd
    rw [List.cons_append]
    rw [fetchSchemas] at h
    rw [fetchSchemas]
    cases hf : fetchSchema deps c with
    | error e => simp [hf] at h
    | ok b =>
      cases hu : deps.unmarshal b with
      | error e => simp [hf, hu] at h
      | ok iq =>
        simp only [hf, hu] at h ⊢
        cases hp : fetchSchemas deps pre' with
        | error e => simp [hp] at h
        | ok l' =>
          simp only [hp, Except.ok.injEq] at h
          subst h
          rw [ih l' hp]
          cases hr : fetchSchemas deps rest <;> simp [hr]

/-- Fan-out over a split list: the loop of `extractTargets` processes a prefix
first, threading the follower state and the element index, and only continues
into the suffix when every prefix element succeeded. -/
theorem extractTargetsList_append (xs : List Value) (pf : pathFollower)
    (ys : List Value) (path : List PathStep) (i : Nat) :
    extractTargetsList pf (xs ++ ys) path i =
      match extractTargetsList pf xs path i with
      | .error e => .error e
      | .ok pf' => extractTargetsList pf' ys path (i + xs.length) := by
  induction xs generalizing pf i with
  | nil => simp [extractTargetsList]
  | cons x xs ih =>
    rw [List.cons_append]
    rw [extractTargetsList, extractTargetsList]
    cases hx : extractTargets pf x path with
    | error err => simp
    | ok pf' =>
      simp only
      rw [ih]
      have harith : i + 1 + xs.length = i + (xs.length + 1) := by omega
      rw [harith]
      rfl

/-- Following an empty path over a list of correlation-marker objects appends
every object as a target and every key in list order. -/
theorem extractTargetsList_fedObjs (ks : List Value) (pf : pathFollower)
    (i : Nat) :
    extractTargetsList pf (ks.map fedObj) [] i =
      .ok ⟨pf.targets ++ ks.map fedFields, pf.keys ++ ks⟩ := by
  induction ks generalizing pf i with
  | nil => simp [extractTargetsList]
  | cons k ks ih =>
    rw [List.map_cons, extractTargetsList]
    have hk : extractTargets pf (fedObj k) [] =
        .ok ⟨pf.targets ++ [fedFields k], pf.keys ++ [k]⟩ := by
      simp [extractTargets, fedObj, fedFields, lookupEntry]
    rw [hk]
    simp only
    rw [ih]
    simp [fedFields]

/-! Claim theorems. -/

/-- Claim C5: when `extractTargets` meets a list, the remaining path is
applied to every element in element order, accumulating targets and keys in
that order.  Conjunct 1: a list of objects each carrying a correlation marker,
followed with an empty remaining path, yields exactly those targets with the
keys in list order.  Conjunct 2: the loop decomposes over any split of the
element list, the suffix processed only after the whole prefix succeeds, with
indices continuing in order.  Conjunct 3: an error arising from the element at
index `i` (all earlier elements having succeeded) is tagged `idx i:` and
aborts the whole follow operation. -/
theorem c5_list_fanout :
    (∀ (pf : pathFollower) (ks : List Value),
       extractTargets pf (Value.arr (ks.map fedObj)) [] =
         .ok ⟨pf.targets ++ ks.map fedFields, pf.keys ++ ks⟩) ∧
    (∀ (pf : pathFollower) (xs ys : List Value) (path : List PathStep) (i : Nat),
       extractTargetsList pf (xs ++ ys) path i =
         match extractTargetsList pf xs path i with
         | .error e => .error e
         | .ok pf' => extractTargetsList pf' ys path (i + xs.length)) ∧
    (∀ (pf pf' : pathFollower) (elems : List Value) (path : List PathStep)
       (i : Nat) (x : Value) (e : String),
       extractTargetsList pf (elems.take i) path 0 = .ok pf' →
       elems.get? i = some x →
       extractTargets pf' x path = .error e →
       extractTargets pf (Value.arr elems) path =
         .error ("idx " ++ toString i ++ ": " ++ e)) := by
  refine ⟨?_, ?_, ?_⟩
  · intro pf ks
    rw [extractTargets]
    exact extractTargetsList_fedObjs ks pf 0
  · intro pf xs ys path i
    exact extractTargetsList_append xs pf ys path i
  · intro pf pf' elems path i x e h1 h2 h3
    have hi : i < elems.length := by
      by_contra hge
      push_neg at hge
      rw [List.get?_eq_none.mpr hge] at h2
      cases h2
    have hx : elems[i] = x := by
      have hg := List.get?_eq_get hi
      rw [hg] at h2
      exact Option.some.inj h2
    have hsplit : elems = elems.take i ++ x :: elems.drop (i + 1) := by
      conv_lhs => rw [← List.take_append_drop i elems]
      congr 1
      rw [List.drop_eq_getElem_cons hi, hx]
    rw [extractTargets]
    conv_lhs => rw [hsplit]
    rw [extractTargetsList_append, h1]
    simp only
    have hlen : (elems.take i).length = i := by
      rw [List.length_take]
      omega
    rw [hlen]
    rw [extractTargetsList]
    simp [h3]

/-- Claim C5 witness: with the list `[{__federation: "k0"}, "bad"]` and an
empty path, the first element succeeds and the scalar at index 1 fails, so the
whole follow aborts tagged `idx 1:`; and a two-object marker list yields both
targets and keys in order. -/
theorem c5_list_fanout_witness :
    extractTargets ⟨[], []⟩
        (Value.arr [fedObj (Value.str "k0"), fedObj (Value.str "k1")]) [] =
      .ok ⟨[fedFields (Value.str "k0"), fedFields (Value.str "k1")],
           [Value.str "k0", Value.str "k1"]⟩ ∧
    extractTargets ⟨[], []⟩ (Value.arr [fedObj (Value.str "k0"), Value.str "bad"]) [] =
      .error ("idx " ++ toString 1 ++ ": " ++ "not an object") := by
  constructor
  · have h := c5_list_fanout.1 ⟨[], []⟩ [Value.str "k0", Value.str "k1"]
    simpa using h
  · refine c5_list_fanout.2.2 ⟨[], []⟩ ⟨[fedFields (Value.str "k0")], [Value.str "k0"]⟩
      [fedObj (Value.str "k0"), Value.str "bad"] [] 1 (Value.str "bad") "not an object"
      ?_ (by rfl) ?_
    · show extractTargetsList ⟨[], []⟩ [fedObj (Value.str "k0")] [] 0 = _
      rw [extractTargetsList]
      have hk : extractTargets ⟨[], []⟩ (fedObj (Value.str "k0")) [] =
          .ok ⟨[fedFields (Value.str "k0")], [Value.str "k0"]⟩ := by
        simp [extractTargets, fedObj, fedFields, lookupEntry]
      rw [hk]
      simp [extractTargetsList]
    · simp [extractTargets]

/-- Claim C6 counterexample: a call of `extractTargets` with an exhausted path
whose node is a (non-object) empty list returns no error and no targets — the
list rule fans out first, so "not an object implies error" fails as stated. -/
theorem c6_empty_list_counterexample :
    extractTargets ⟨[], []⟩ (Value.arr []) [] = .ok ⟨[], []⟩ := by
  simp [extractTargets, extractTargetsList]

/-- Claim C6 (amended): with an exhausted path, on any node that is not a
list, the node must be an object carrying `__federation`: when present, the
key is appended and the object becomes the target with no error; when the
object lacks the field, or the node is not an object, an error is returned. -/
theorem c6_path_exhaustion (pf : pathFollower) (node : Value)
    (hnl : ∀ l, node ≠ Value.arr l) :
    (∀ fields key, node = Value.obj fields →
       lookupEntry fields "__federation" = some key →
       extractTargets pf node [] =
         .ok ⟨pf.targets ++ [fields], pf.keys ++ [key]⟩) ∧
    (∀ fields, node = Value.obj fields →
       lookupEntry fields "__federation" = none →
       extractTargets pf node [] = .error "missing __federation") ∧
    ((∀ fields, node ≠ Value.obj fields) →
       extractTargets pf node [] = .error "not an object") := by
  refine ⟨?_, ?_, ?_⟩
  · rintro fields key rfl hk
    simp [extractTargets, hk]
  · rintro fields rfl hk
    simp [extractTargets, hk]
  · intro hno
    cases node with
    | arr l => exact absurd rfl (hnl l)
    | obj fields => exact absurd rfl (hno fields)
    | null => simp [extractTargets]
    | boolean b => simp [extractTargets]
    | num n => simp [extractTargets]
    | str s => simp [extractTargets]

/-- Claim C6 witness: at path exhaustion a marker-carrying object yields
itself and its key; an object without the marker errors; a scalar errors. -/
theorem c6_path_exhaustion_witness :
    extractTargets ⟨[], []⟩ (Value.obj [("__federation", Value.str "k")]) [] =
      .ok ⟨[] ++ [[("__federation", Value.str "k")]], [] ++ [Value.str "k"]⟩ ∧
    extractTargets ⟨[], []⟩ (Value.obj [("x", Value.null)]) [] =
      .error "missing __federation" ∧
    extractTargets ⟨[], []⟩ (Value.str "s") [] = .error "not an object" := by
  refine ⟨?_, ?_, ?_⟩
  · exact (c6_path_exhaustion ⟨[], []⟩ (Value.obj [("__federation", Value.str "k")])
      (by intro l; simp)).1 _ _ rfl (by simp [lookupEntry])
  · exact (c6_path_exhaustion ⟨[], []⟩ (Value.obj [("x", Value.null)])
      (by intro l; simp)).2.1 _ rfl (by simp [lookupEntry])
  · exact (c6_path_exhaustion ⟨[], []⟩ (Value.str "s")
      (by intro l; simp)).2.2 (by intro fields; simp)

/-- Claim C7 counterexample: a field-descent step against a scalar node (not
an object at all) returns no error and no targets — the source returns `nil`
for a non-object, so "not an object implies error" fails as stated. -/
theorem c7_non_object_counterexample :
    extractTargets ⟨[], []⟩ (Value.str "x") [⟨.KindField, "f"⟩] = .ok ⟨[], []⟩ := by
  simp [extractTargets]

/-- Claim C7 (amended): with a field-descent step first, an object lacking the
named field is an error; but a node that is neither a list nor an object is
silently skipped, returning the follower unchanged with no error. -/
theorem c7_field_descent :
    (∀ (pf : pathFollower) (fields : List (String × Value)) (fname : String)
       (rest : List PathStep), lookupEntry fields fname = none →
       extractTargets pf (Value.obj fields) (⟨.KindField, fname⟩ :: rest) =
         .error ("does not have key " ++ fname)) ∧
    (∀ (pf : pathFollower) (node : Value) (step : PathStep)
       (rest : List PathStep),
       (∀ fields, node ≠ Value.obj fields) → (∀ l, node ≠ Value.arr l) →
       extractTargets pf node (step :: rest) = .ok pf) := by
  constructor
  · intro pf fields fname rest h
    simp [extractTargets, h]
  · intro pf node step rest hno hnl
    cases node with
    | arr l => exact absurd rfl (hnl l)
    | obj fields => exact absurd rfl (hno fields)
    | null => simp [extractTargets]
    | boolean b => simp [extractTargets]
    | num n => simp [extractTargets]
    | str s => simp [extractTargets]

/-- Claim C7 witness: descending into `f` on an object lacking it errors with
the field name; descending on `null` silently yields the unchanged follower. -/
theorem c7_field_descent_witness :
    extractTargets ⟨[], []⟩ (Value.obj [("a", Value.null)]) [⟨.KindField, "f"⟩] =
      .error ("does not have key " ++ "f") ∧
    extractTargets ⟨[], []⟩ Value.null [⟨.KindField, "g"⟩] = .ok ⟨[], []⟩ := by
  constructor
  · exact c7_field_descent.1 ⟨[], []⟩ [("a", Value.null)] "f" [] (by simp [lookupEntry])
  · exact c7_field_descent.2 ⟨[], []⟩ Value.null ⟨.KindField, "g"⟩ []
      (by intro fields; simp) (by intro l; simp)

/-- Claim C8: a type-restriction step demands a string-valued `__typename` on
the current object (anything else is an error), and a reported type that
differs from the step's expected type yields the follower unchanged — zero
added targets, zero added keys, and no error. -/
theorem c8_type_restriction :
    (∀ (pf : pathFollower) (fields : List (String × Value)) (tname : String)
       (rest : List PathStep),
       (∀ s, lookupEntry fields "__typename" ≠ some (Value.str s)) →
       extractTargets pf (Value.obj fields) (⟨.KindType, tname⟩ :: rest) =
         .error "does not have string key __typename") ∧
    (∀ (pf : pathFollower) (fields : List (String × Value)) (tname : String)
       (rest : List PathStep) (typ : String),
       lookupEntry fields "__typename" = some (Value.str typ) → typ ≠ tname →
       extractTargets pf (Value.obj fields) (⟨.KindType, tname⟩ :: rest) =
         .ok pf) := by
  constructor
  · intro pf fields tname rest h
    cases hx : lookupEntry fields "__typename" with
    | none => simp [extractTargets, hx]
    | some v =>
      cases v with
      | str s => exact absurd hx (h s)
      | null => simp [extractTargets, hx]
      | boolean b => simp [extractTargets, hx]
      | num n => simp [extractTargets, hx]
      | arr l => simp [extractTargets, hx]
      | obj fs => simp [extractTargets, hx]
  · intro pf fields tname rest typ hx hne
    simp [extractTargets, hx, hne]

/-- Claim C8 witness: an object without `__typename` errors under a
type-restriction step; an object reporting type `A` checked against `B`
yields the unchanged follower with no error. -/
theorem c8_type_restriction_witness :
    extractTargets ⟨[], []⟩ (Value.obj [("x", Value.num 1)]) [⟨.KindType, "B"⟩] =
      .error "does not have string key __typename" ∧
    extractTargets ⟨[], []⟩ (Value.obj [("__typename", Value.str "A")])
        [⟨.KindType, "B"⟩] = .ok ⟨[], []⟩ := by
  constructor
  · exact c8_type_restriction.1 ⟨[], []⟩ [("x", Value.num 1)] "B" []
      (by intro s; simp [lookupEntry])
  · exact c8_type_restriction.2 ⟨[], []⟩ [("__typename", Value.str "A")] "B" [] "A"
      (by simp [lookupEntry]) (by decide)

/-- Claim C1 (code bug): `execute` never invokes the path-following walk — for
each child it sets `pf.targets = [res[0]]` and `pf.keys = nil` regardless of
the child's declared `Path`.  Conjunct 1: for every declared child path `q`,
executing a coordinator root with one coordinator child yields the same merged
root object, so the result is independent of `q` and the child is merged into
the parent's result root with nil keys.  Conjunct 2: the walk mandated by the
spec (`extractTargets` over the child's path against the parent's fresh empty
result) would instead have rejected this configuration. -/
theorem c1_path_following_omitted :
    (∀ q : List PathStep,
       execute (Plan.mk gatewayCoordinatorServiceName "" []
         [Plan.mk gatewayCoordinatorServiceName "" q []]) [] =
         .ok [Value.obj []]) ∧
    extractTargets ⟨[], []⟩ (Value.obj []) [⟨.KindField, "foo"⟩] =
      .error ("does not have key " ++ "foo") := by
  constructor
  · intro q
    simp [execute, executeAfter, Plan.Service, Plan.After, mergeFields]
  · simp [extractTargets, lookupEntry]

/-- Claim C2 (code bug): for a plan targeting a real backend service,
`execute` performs no fetch at all — its body contains no call to any
`ExecutorClient`, it never binds the supplied keys, and the local result slice
stays nil, so the returned result is empty whatever keys were supplied.  The
coordinator half of the claim does hold: a coordinator plan synthesizes
exactly one empty object. -/
theorem c2_fetch_omitted :
    (∀ keys : List Value,
       execute (Plan.mk "users" "{ users { id } }" [] []) keys = .ok []) ∧
    (∀ keys : List Value,
       execute (Plan.mk gatewayCoordinatorServiceName "q2" [] []) keys =
         .ok [Value.obj []]) := by
  constructor
  · intro keys
    simp [execute, executeAfter, Plan.Service, Plan.After,
      gatewayCoordinatorServiceName]
  · intro keys
    simp [execute, executeAfter, Plan.Service, Plan.After]

/-- Claim C3 (code bug): a single-node childless plan on a real backend does
not round-trip the service's decoded response — `execute` returns the empty
slice (no fetch happened), and the top-level `Execute` then crashes indexing
`r[0]` instead of returning the backend's answer. -/
theorem c3_round_trip_broken :
    execute (Plan.mk "users" "query" [] []) [] = .ok [] ∧
    ExecuteFromPlan (Plan.mk "users" "query" [] []) =
      .error (.crash indexOutOfRangeMsg) := by
  constructor
  · simp [execute, executeAfter, Plan.Service, Plan.After,
      gatewayCoordinatorServiceName]
  · simp [ExecuteFromPlan, execute, executeAfter, Plan.Service, Plan.After,
      gatewayCoordinatorServiceName]

/-- Claim C4 counterexample: a well-formed plan targeting a real backend with
one child makes `execute` crash on the nil-slice index `res[0]`, so `execute`
is not total — execution aborts instead of returning a result or an error
value. -/
theorem c4_not_total_counterexample :
    execute (Plan.mk "users" "q" [] [Plan.mk "users" "q" [] []]) [] =
      .error (.crash indexOutOfRangeMsg) := by
  simp [execute, executeAfter, Plan.Service, Plan.After,
    gatewayCoordinatorServiceName]

/-- Claim C4 (amended): `execute` and `Execute` are not total.  For any plan
whose service is not the coordinator identity the local result slice stays
nil: with children, the child-setup index `res[0]` is out of bounds and
execution crashes; with no children, `execute` returns the empty slice and the
top-level `Execute` crashes on `r[0]`. -/
theorem c4_panic_characterization (p : Plan) (keys : List Value)
    (h : p.Service ≠ gatewayCoordinatorServiceName) :
    (p.After = [] →
       execute p keys = .ok [] ∧
       ExecuteFromPlan p = .error (.crash indexOutOfRangeMsg)) ∧
    (p.After ≠ [] → execute p keys = .error (.crash indexOutOfRangeMsg)) := by
  constructor
  · intro ha
    have he : ∀ ks : List Value, execute p ks = .ok [] := by
      intro ks
      rw [execute]
      simp [h, ha, executeAfter]
    refine ⟨he keys, ?_⟩
    rw [ExecuteFromPlan, he []]
  · intro ha
    cases hb : p.After with
    | nil => exact absurd hb ha
    | cons sub rest =>
      rw [execute]
      simp [h, hb, executeAfter]

/-- Claim C4 witness: the childless plan on service `users` returns the empty
slice and `Execute` crashes; the same plan with one child crashes already in
`execute`. -/
theorem c4_panic_characterization_witness :
    (execute (Plan.mk "users" "w" [] []) [] = .ok [] ∧
     ExecuteFromPlan (Plan.mk "users" "w" [] []) =
       .error (.crash indexOutOfRangeMsg)) ∧
    execute (Plan.mk "users" "w" [] [Plan.mk "users" "w" [] []]) [] =
      .error (.crash indexOutOfRangeMsg) := by
  constructor
  · exact (c4_panic_characterization (Plan.mk "users" "w" [] []) []
      (by simp [Plan.Service, gatewayCoordinatorServiceName])).1 rfl
  · exact (c4_panic_characterization
      (Plan.mk "users" "w" [] [Plan.mk "users" "w" [] []]) []
      (by simp [Plan.Service, gatewayCoordinatorServiceName])).2
      (by simp [Plan.After])

/-- Claim C9: `NewExecutor` fails fast with no partial gateway.  If any
service's schema fetch fails (all earlier map entries having succeeded), the
whole construction fails with `fetching schema <service>: ...`; if its bytes
cannot be unmarshalled, with `unmarshaling schema <service>: ...`; if merging
the fetched schemas fails, with `converting schema error: ...`; and if (all
earlier stages succeeding) flattener derivation fails, construction fails with
that error.  In every case the `Except.error` result carries no `Executor`,
the counterpart of Go's `nil` gateway. -/
theorem c9_new_executor_fail_fast {C : Type} (deps : GatewayDeps C)
    (executors : List (String × C)) :
    (∀ (pre post : List (String × C)) (s : String) (c : C)
       (l : List (String × IQR)) (m : String),
       executors = pre ++ (s, c) :: post →
       fetchSchemas deps pre = .ok l →
       fetchSchema deps c = .error m →
       NewExecutor deps executors =
         .error ("fetching schema " ++ s ++ ": " ++ m)) ∧
    (∀ (pre post : List (String × C)) (s : String) (c : C)
       (l : List (String × IQR)) (b : Bytes) (m : String),
       executors = pre ++ (s, c) :: post →
       fetchSchemas deps pre = .ok l →
       fetchSchema deps c = .ok b →
       deps.unmarshal b = .error m →
       NewExecutor deps executors =
         .error ("unmarshaling schema " ++ s ++ ": " ++ m)) ∧
    (∀ (schemas : List (String × IQR)) (m : String),
       fetchSchemas deps executors = .ok schemas →
       deps.convertSchema schemas = .error m →
       NewExecutor deps executors =
         .error ("converting schema error: " ++ m)) ∧
    (∀ (schemas : List (String × IQR)) (types : SchemaWithFederationInfo)
       (iq : IQR) (types2 : SchemaWithFederationInfo) (m : String),
       fetchSchemas deps executors = .ok schemas →
       deps.convertSchema schemas = .ok types →
       deps.unmarshal (introspectionBytes deps types) = .ok iq →
       deps.convertSchema (setEntry schemas "introspection" iq) = .ok types2 →
       deps.newFlattener types2.Schema = .error m →
       NewExecutor deps executors = .error m) := by
  refine ⟨?_, ?_, ?_, ?_⟩
  · rintro pre post s c l m rfl h1 h2
    have hf : fetchSchemas deps (pre ++ (s, c) :: post) =
        .error ("fetching schema " ++ s ++ ": " ++ m) := by
      rw [fetchSchemas_prefix_ok deps pre l h1]
      rw [fetchSchemas]
      simp [h2]
    rw [NewExecutor, hf]
  · rintro pre post s c l b m rfl h1 h2 h3
    have hf : fetchSchemas deps (pre ++ (s, c) :: post) =
        .error ("unmarshaling schema " ++ s ++ ": " ++ m) := by
      rw [fetchSchemas_prefix_ok deps pre l h1]
      rw [fetchSchemas]
      simp [h2, h3]
    rw [NewExecutor, hf]
  · intro schemas m h1 h2
    rw [NewExecutor, h1]
    simp [h2]
  · intro schemas types iq types2 m h1 h2 h3 h4 h5
    rw [NewExecutor, h1]
    simp [h2, h3, h4, h5]

/-- Claim C9 witness: gateway construction over concrete dependency
configurations that fail at each stage — fetch, decode, merge, flatten —
returns the corresponding error and no gateway. -/
theorem c9_new_executor_fail_fast_witness :
    NewExecutor depsFetchFail [("a", 1), ("b", 2)] =
      .error ("fetching schema " ++ "b" ++ ": " ++ "boom") ∧
    NewExecutor depsDecodeFail [("a", 1), ("b", 2)] =
      .error ("unmarshaling schema " ++ "b" ++ ": " ++ "garbage") ∧
    NewExecutor depsMergeFail [("a", 1)] =
      .error ("converting schema error: " ++ "conflict") ∧
    NewExecutor depsFlattenFail [("a", 1)] = .error "no key" := by
  refine ⟨?_, ?_, ?_, ?_⟩
  · exact (c9_new_executor_fail_fast depsFetchFail [("a", 1), ("b", 2)]).1
      [("a", 1)] [] "b" 2 [("a", "IQ")] "boom" rfl rfl rfl
  · exact (c9_new_executor_fail_fast depsDecodeFail [("a", 1), ("b", 2)]).2.1
      [("a", 1)] [] "b" 2 [("a", "IQ")] "bad" "garbage" rfl rfl rfl rfl
  · exact (c9_new_executor_fail_fast depsMergeFail [("a", 1)]).2.2.1
      [("a", "IQ")] "conflict" rfl rfl
  · exact (c9_new_executor_fail_fast depsFlattenFail [("a", 1)]).2.2.2
      [("a", "IQ")] ⟨"T"⟩ "IQ" ⟨"T"⟩ "no key" rfl rfl rfl rfl rfl

/-- Claim C10: on success, `NewExecutor` has inserted into the caller's
executors map the key `introspection`, mapped to the direct client wrapping
the synthesized introspection server (whose schema is the bare introspection
schema of the first merge's result), and every other key's entry is
unchanged. -/
theorem c10_executors_map_mutation {C : Type} (deps : GatewayDeps C)
    (executors : List (String × C)) (ex : Executor C)
    (h : NewExecutor deps executors = .ok ex) :
    (∃ (schemas : List (String × IQR)) (types : SchemaWithFederationInfo),
       fetchSchemas deps executors = .ok schemas ∧
       deps.convertSchema schemas = .ok types ∧
       lookupEntry ex.Executors "introspection" =
         some (deps.directClient { schema := deps.bareSchema types.Schema })) ∧
    (∀ k, k ≠ "introspection" →
       lookupEntry ex.Executors k = lookupEntry executors k) := by
  cases hfs : fetchSchemas deps executors with
  | error e => simp [NewExecutor, hfs] at h
  | ok schemas =>
    cases hcs : deps.convertSchema schemas with
    | error e => simp [NewExecutor, hfs, hcs] at h
    | ok types =>
      cases hun : deps.unmarshal (introspectionBytes deps types) with
      | error e => simp [NewExecutor, hfs, hcs, hun] at h
      | ok iq =>
        cases hcs2 : deps.convertSchema (setEntry schemas "introspection" iq) with
        | error e => simp [NewExecutor, hfs, hcs, hun, hcs2] at h
        | ok types2 =>
          cases hnf : deps.newFlattener types2.Schema with
          | error e => simp [NewExecutor, hfs, hcs, hun, hcs2, hnf] at h
          | ok fl =>
            simp only [NewExecutor, hfs, hcs, hun, hcs2, hnf,
              Except.ok.injEq] at h
            subst h
            constructor
            · exact ⟨schemas, types, rfl, hcs, by
                simp [lookupEntry_setEntry_self]⟩
            · intro k hk
              simp [lookupEntry_setEntry_other _ _ _ _ hk]

/-- Claim C10 witness: with the all-success dependencies and the one-service
map `[("a", 1)]`, construction succeeds, the resulting map holds the direct
introspection client under `introspection`, and the entry for `a` is
untouched. -/
theorem c10_executors_map_mutation_witness :
    NewExecutor depsAllOk [("a", 1)] = .ok exAllOk ∧
    ((∃ (schemas : List (String × IQR)) (types : SchemaWithFederationInfo),
        fetchSchemas depsAllOk [("a", 1)] = .ok schemas ∧
        depsAllOk.convertSchema schemas = .ok types ∧
        lookupEntry exAllOk.Executors "introspection" =
          some (depsAllOk.directClient
            { schema := depsAllOk.bareSchema types.Schema })) ∧
     (∀ k, k ≠ "introspection" →
        lookupEntry exAllOk.Executors k = lookupEntry [("a", (1 : Nat))] k)) :=
  ⟨rfl, c10_executors_map_mutation depsAllOk [("a", 1)] exAllOk rfl⟩

end Federation
